import Mathlib

/-
  Verification development for the cpp-sqlite header-only wrapper
  (src/sqlite.hpp).  The wrapper delegates all SQL work to the external
  sqlite3 engine; here the engine boundary (sqlite3_step, sqlite3_reset,
  sqlite3_bind_*, sqlite3_column_*, sqlite3_errstr, sqlite3_finalize) is
  modelled from the engine's documented semantics, while every wrapper-level
  definition is a direct translation of the corresponding function in
  src/sqlite.hpp (line numbers cited at each definition).
-/

namespace SQLite

/-! ## Engine status codes (from sqlite3.h, as used by the wrapper) -/

def SQLITE_OK : Int := 0

def SQLITE_ERROR : Int := 1

def SQLITE_BUSY : Int := 5

def SQLITE_CONSTRAINT : Int := 19

def SQLITE_RANGE : Int := 25

def SQLITE_ROW : Int := 100

def SQLITE_DONE : Int := 101

/-- Modelled from the engine docs: `sqlite3_errstr` maps a status code to the
engine's generic English status text.  Only the codes the claims exercise are
spelled out; the exact strings are irrelevant to every theorem below, which
treat this map symbolically. -/
def sqlite3_errstr (code : Int) : String :=
  if code = 0 then "not an error"
  else if code = 1 then "SQL logic error"
  else if code = 5 then "database is locked"
  else if code = 19 then "constraint failed"
  else if code = 25 then "column index out of range"
  else if code = 101 then "no more rows available"
  else "unknown error"

/-- sqlite::Error (src/sqlite.hpp lines 47-70): a message plus a numeric
status code. -/
structure Error where
  message : String
  code : Int
deriving DecidableEq, Repr

/-- Modelled from the engine docs: the connection-level diagnostic state read
by `Priv::CheckError(sqlite3*, int)` — the extended error code
(`sqlite3_extended_errcode`) and the last detailed message (`sqlite3_errmsg`). -/
structure Db where
  extendedErrcode : Int
  errmsg : String
deriving DecidableEq, Repr

namespace Priv

/-- src/sqlite.hpp lines 88-97: `Priv::CheckError(int)`.  Throws
`sqlite::Error` (modelled as `Except.error`) unless the code is SQLITE_OK or
SQLITE_DONE; otherwise returns true. -/
def CheckError1 (code : Int) : Except Error Bool :=
  if code ≠ SQLITE_OK ∧ code ≠ SQLITE_DONE then
    .error ⟨"SQL error: " ++ sqlite3_errstr code, code⟩
  else
    .ok true

/-- src/sqlite.hpp lines 74-86: `Priv::CheckError(sqlite3*, int)`.  On a
non-OK, non-DONE code it throws `Error` whose text is
`sqlite3_errstr(extendedCode) + ": " + sqlite3_errmsg(db)` and whose code is
the extended error code. -/
def CheckError2 (db : Db) (code : Int) : Except Error Bool :=
  if code ≠ SQLITE_OK ∧ code ≠ SQLITE_DONE then
    .error ⟨sqlite3_errstr db.extendedErrcode ++ ": " ++ db.errmsg, db.extendedErrcode⟩
  else
    .ok true

/-- src/sqlite.hpp lines 88-97 under `CPP_SQLITE_NOTHROW` (lines 39-43):
`CPP_SQLITE_THROW` expands to `return false`, so `CheckError(int)` returns a
plain success flag. -/
def CheckError1NT (code : Int) : Bool :=
  if code ≠ SQLITE_OK ∧ code ≠ SQLITE_DONE then false else true

/-- src/sqlite.hpp lines 74-86 under `CPP_SQLITE_NOTHROW`: the db-flavoured
check returns false instead of throwing (the diagnostic strings are computed
and discarded). -/
def CheckError2NT (_db : Db) (code : Int) : Bool :=
  if code ≠ SQLITE_OK ∧ code ≠ SQLITE_DONE then false else true

end Priv

/-! ## Engine value and statement model -/

/-- Modelled from the engine docs: the storage class of a value held in a
bound parameter or a result cell.  Byte buffers are lists of byte values;
IEEE binary64 REALs are modelled as exact rationals, which is faithful here
because the wrapper performs no floating-point arithmetic — it only stores
and reloads values. -/
inductive SQLValue where
  | nullv : SQLValue
  | intv (i : Int) : SQLValue
  | realv (r : Rat) : SQLValue
  | textv (s : List Nat) : SQLValue
  | blobv (b : List Nat) : SQLValue
deriving DecidableEq, Repr

/-- Modelled from the engine docs: one prepared statement (`sqlite3_stmt`).
`rows` are the result rows the (re-)execution produces, `pos` counts the rows
consumed since the last reset, `steps` counts every `sqlite3_step` call ever
made (pure instrumentation, observable to no wrapper function), and `faults`
is a schedule of injected engine failures: while non-empty, the next
`sqlite3_step` reports its head (e.g. SQLITE_BUSY) instead of advancing. -/
structure Stmt where
  nparams : Nat
  params : List (Option SQLValue)
  ncols : Nat
  rows : List (List SQLValue)
  pos : Nat
  steps : Nat
  faults : List Int
deriving DecidableEq, Repr

/-- Modelled from the engine docs: `sqlite3_step` returns SQLITE_ROW while
result rows remain, SQLITE_DONE at exhaustion, or a scheduled failure code. -/
def sqlite3_step (s : Stmt) : Int × Stmt :=
  match s.faults with
  | c :: rest => (c, { s with faults := rest, steps := s.steps + 1 })
  | [] =>
    if s.pos < s.rows.length then
      (SQLITE_ROW, { s with pos := s.pos + 1, steps := s.steps + 1 })
    else
      (SQLITE_DONE, { s with steps := s.steps + 1 })

/-- Modelled from the engine docs: `sqlite3_reset` rewinds the statement to
the start of its result set.  Its return code mirrors the most recent step
error; on every path the wrapper takes it is called only after a successful
or DONE step, where it returns SQLITE_OK, so the code is not modelled. -/
def sqlite3_reset (s : Stmt) : Stmt :=
  { s with pos := 0 }

/-- Modelled from the engine docs: `sqlite3_bind_*` stores a value in a
1-based parameter slot, failing with SQLITE_RANGE when the index is outside
`1..nparams`. -/
def sqlite3_bind (s : Stmt) (i : Nat) (v : SQLValue) : Int × Stmt :=
  if 1 ≤ i ∧ i ≤ s.nparams then
    (SQLITE_OK, { s with params := s.params.set (i - 1) (some v) })
  else
    (SQLITE_RANGE, s)

/-! ## Result cursor (src/sqlite.hpp lines 284-377) -/

/-- src/sqlite.hpp lines 335-349: `Result::Next()`.  One engine step; true on
SQLITE_ROW; otherwise `CheckError(code)` (throwing on anything but OK/DONE),
then `Reset()`, then false. -/
def Result.Next (s : Stmt) : Except Error (Bool × Stmt) :=
  let p := sqlite3_step s
  if p.1 = SQLITE_ROW then
    .ok (true, p.2)
  else
    match Priv.CheckError1 p.1 with
    | .error e => .error e
    | .ok _ => .ok (false, sqlite3_reset p.2)

/-- src/sqlite.hpp lines 218-231: `Statement::Evaluate()`.  The body is a
verbatim duplicate of `Result::Next()` in the source, repeated here for the
same reason. -/
def Statement.Evaluate (s : Stmt) : Except Error (Bool × Stmt) :=
  let p := sqlite3_step s
  if p.1 = SQLITE_ROW then
    .ok (true, p.2)
  else
    match Priv.CheckError1 p.1 with
    | .error e => .error e
    | .ok _ => .ok (false, sqlite3_reset p.2)

/-- src/sqlite.hpp lines 218-231 under `CPP_SQLITE_NOTHROW`: the
`CheckError(code)` result is computed and discarded (the source ignores its
return value), so the function always reaches `Reset()` and returns false on
any non-ROW code. -/
def Statement.EvaluateNT (s : Stmt) : Bool × Stmt :=
  let p := sqlite3_step s
  if p.1 = SQLITE_ROW then
    (true, p.2)
  else
    (false, sqlite3_reset p.2)

/-- src/sqlite.hpp lines 330-333 and 213-216: `Reset()` wraps
`CheckError(sqlite3_reset(...))`; the reset code is SQLITE_OK on every path
the wrapper reaches (see `sqlite3_reset`). -/
def Statement.ResetE (s : Stmt) : Except Error (Bool × Stmt) :=
  match Priv.CheckError1 SQLITE_OK with
  | .error e => .error e
  | .ok b => .ok (b, sqlite3_reset s)

/-- src/sqlite.hpp lines 351-365: `Result::ColumnCount()`.  Reset, one
advance; 0 when no row appears, else read `sqlite3_column_count` and reset
again. -/
def Result.ColumnCount (s : Stmt) : Except Error (Nat × Stmt) :=
  let s1 := sqlite3_reset s
  match Result.Next s1 with
  | .error e => .error e
  | .ok (false, s2) => .ok (0, s2)
  | .ok (true, s2) => .ok (s2.ncols, sqlite3_reset s2)

/-- Projection helper: the Boolean a `Next()` call reports. -/
def nextBool (s : Stmt) : Except Error Bool :=
  (Result.Next s).map Prod.fst

/-- Iterate `Result.Next`, collecting the reported Booleans (stops early if
the engine reports an error). -/
def runNext (s : Stmt) : Nat → List Bool
  | 0 => []
  | n + 1 =>
    match Result.Next s with
    | .ok (b, s') => b :: runNext s' n
    | .error _ => []

/-- A statement literal with no parameters and a fresh cursor. -/
def mkStmt (ncols : Nat) (rows : List (List SQLValue)) : Stmt :=
  ⟨0, [], ncols, rows, 0, 0, []⟩



/-! ## Column extraction and the Blob value type
(src/sqlite.hpp lines 100-135 and 379-424) -/

/-- The two C++ failures the extraction layer can hit: dereferencing a null
pointer (undefined behavior) and `std::vector::at` past the end
(`std::out_of_range`). -/
inductive CppError where
  | nullDeref : CppError
  | outOfRange : CppError
deriving DecidableEq, Repr

/-- src/sqlite.hpp lines 103-107: `Blob(const void* data, int32_t bytes)`.
`m_data.resize(bytes)` then `std::memcpy(&m_data.at(0), data, bytes)`.
When `bytes = 0` the vector is empty and `m_data.at(0)` raises
`std::out_of_range` before the copy; when `bytes > 0` and `data` is null the
`memcpy` dereferences the null pointer. -/
def Blob.ctorPtr (data : Option (List Nat)) (bytes : Nat) : Except CppError (List Nat) :=
  if bytes = 0 then
    .error .outOfRange
  else
    match data with
    | none => .error .nullDeref
    | some d => .ok (d.take bytes)

/-- src/sqlite.hpp lines 109-113: `Blob(std::vector<unsigned char> data)`
moves the byte vector in unchanged. -/
def Blob.ctorVec (data : List Nat) : List Nat :=
  data

/-- Modelled from the engine docs: `sqlite3_column_text` on a TEXT cell.  The
engine is free to hand back a null pointer for zero-length text; the model
takes the adversarial choice and always does so. -/
def columnTextPtr : SQLValue → Option (List Nat)
  | .textv s => if s = [] then none else some s
  | _ => none

/-- Modelled from the engine docs: `sqlite3_column_blob` on a BLOB cell; null
for a zero-length blob. -/
def columnBlobPtr : SQLValue → Option (List Nat)
  | .blobv b => if b = [] then none else some b
  | _ => none

/-- Modelled from the engine docs: `sqlite3_column_bytes` — the byte length
of the text/blob value in the cell. -/
def columnBytes : SQLValue → Nat
  | .textv s => s.length
  | .blobv b => b.length
  | _ => 0

/-- Two's-complement truncation of an int64 to an int32, the conversion
`sqlite3_column_int` applies to an INTEGER cell. -/
def int32OfInt64 (i : Int) : Int :=
  (i + 2 ^ 31) % 2 ^ 32 - 2 ^ 31

/-- Modelled from the engine docs: `sqlite3_column_int`.  The claims only
read INTEGER cells through it; the other storage classes follow the engine's
documented coercions (NULL yields 0; REAL truncates toward zero; non-numeric
TEXT/BLOB yield 0). -/
def columnInt : SQLValue → Int
  | .intv i => int32OfInt64 i
  | .realv r => int32OfInt64 (r.num / (r.den : Int))
  | _ => 0

/-- Modelled from the engine docs: `sqlite3_column_int64`. -/
def columnInt64 : SQLValue → Int
  | .intv i => i
  | .realv r => r.num / (r.den : Int)
  | _ => 0

/-- Modelled from the engine docs: `sqlite3_column_double`. -/
def columnDouble : SQLValue → Rat
  | .realv r => r
  | .intv i => (i : Rat)
  | _ => 0

/-- IEEE float→double widening performed by `static_cast<double>(float)`
(src/sqlite.hpp line 245).  Every binary32 value is exactly representable in
binary64, so on the rational model the conversion is exact. -/
def f32ToF64 (r : Rat) : Rat :=
  r

/-- IEEE double→float narrowing performed by `static_cast<float>` in
`Result::Get<float>` (src/sqlite.hpp line 382).  On a double that was widened
from a float — the only case the wrapper round-trips — the narrowing returns
the original float exactly, which the rational model reflects. -/
def f64ToF32 (r : Rat) : Rat :=
  r

/-- src/sqlite.hpp lines 403-415: `Result::Get<std::string>`.  Reads the text
pointer and the byte count; when the count is 0 it returns `""` without
touching the pointer, else it builds the string from `size` bytes at the
pointer. -/
def Result.GetString (ptr : Option (List Nat)) (size : Nat) : Except CppError (List Nat) :=
  if size = 0 then
    .ok []
  else
    match ptr with
    | none => .error .nullDeref
    | some b => .ok (b.take size)

/-- src/sqlite.hpp lines 417-424: `Result::Get<sqlite::Blob>`.  Reads the
blob pointer and the byte count and hands both straight to
`Blob(const void*, int32_t)` with no zero-length guard. -/
def Result.GetBlob (ptr : Option (List Nat)) (size : Nat) : Except CppError (List Nat) :=
  Blob.ctorPtr ptr size

/-- src/sqlite.hpp line 380-383: `Result::Get<float>`. -/
def Result.GetFloat (cell : SQLValue) : Rat :=
  f64ToF32 (columnDouble cell)

/-- src/sqlite.hpp lines 385-389: `Result::Get<double>`. -/
def Result.GetDouble (cell : SQLValue) : Rat :=
  columnDouble cell

/-- src/sqlite.hpp lines 391-395: `Result::Get<int32_t>`. -/
def Result.GetInt32 (cell : SQLValue) : Int :=
  columnInt cell

/-- src/sqlite.hpp lines 397-401: `Result::Get<int64_t>`. -/
def Result.GetInt64 (cell : SQLValue) : Int :=
  columnInt64 cell

/-! ## Typed parameter binding (src/sqlite.hpp lines 233-271)
Each `Statement::Bind(int, T)` overload converts its argument and hands it to
the engine; the stored cell below is the value the engine keeps for the slot. -/

/-- src/sqlite.hpp lines 233-236: `Bind(int, const int32_t&)` via
`sqlite3_bind_int` (the engine widens to int64 internally). -/
def bindInt32 (v : Int) : SQLValue :=
  .intv v

/-- src/sqlite.hpp lines 238-241: `Bind(int, const int64_t&)`. -/
def bindInt64 (v : Int) : SQLValue :=
  .intv v

/-- src/sqlite.hpp lines 243-246: `Bind(int, const float&)` —
`static_cast<double>(data)` then `sqlite3_bind_double`. -/
def bindFloat (v : Rat) : SQLValue :=
  .realv (f32ToF64 v)

/-- src/sqlite.hpp lines 248-251: `Bind(int, const double&)`. -/
def bindDouble (v : Rat) : SQLValue :=
  .realv v

/-- src/sqlite.hpp lines 253-256: `Bind(int, const std::string&)` —
`sqlite3_bind_text(data.data(), data.size())`. -/
def bindText (s : List Nat) : SQLValue :=
  .textv s

/-- src/sqlite.hpp lines 263-266: `Bind(int, const sqlite::Blob&)` —
`sqlite3_bind_blob(blob.GetData(), blob.GetSize())`. -/
def bindBlob (b : List Nat) : SQLValue :=
  .blobv b

/-! ### Round trips through a single-row table.
Modelled from the engine docs: inserting a bound value into a column without
affinity conversion and selecting it back delivers the stored cell verbatim,
so the round trip composes the wrapper's bind conversion with the wrapper's
extraction of the resulting cell. -/

def roundTripInt32 (v : Int) : Int :=
  Result.GetInt32 (bindInt32 v)

def roundTripInt64 (v : Int) : Int :=
  Result.GetInt64 (bindInt64 v)

def roundTripFloat (v : Rat) : Rat :=
  Result.GetFloat (bindFloat v)

def roundTripDouble (v : Rat) : Rat :=
  Result.GetDouble (bindDouble v)

def roundTripString (s : List Nat) : Except CppError (List Nat) :=
  Result.GetString (columnTextPtr (bindText s)) (columnBytes (bindText s))

def roundTripBlob (b : List Nat) : Except CppError (List Nat) :=
  Result.GetBlob (columnBlobPtr (bindBlob b)) (columnBytes (bindBlob b))

/-! ## Construction and destruction (src/sqlite.hpp lines 172-197, 309-315,
456-466) -/

/-- src/sqlite.hpp lines 172-182: the `Statement` constructor.  The engine's
`sqlite3_prepare_v2` outcome is a status code plus (on success) a fresh
statement handle; the constructor runs `Priv::CheckError(connectionHandle,
code)`, so in the default configuration a failed prepare throws before the
caller can observe a statement. -/
def Statement.ctorRun (db : Db) (code : Int) (handle : Option Nat) :
    Except Error (Option Nat) :=
  match Priv.CheckError2 db code with
  | .error e => .error e
  | .ok _ => .ok handle

/-- src/sqlite.hpp lines 191-197: `Statement::~Statement()`.  When the handle
is non-null it runs `Priv::CheckError(sqlite3_finalize(m_handle))` with no
try/catch, so in the default configuration a non-OK/DONE finalize code makes
the (noexcept) destructor throw — modelled as the error escaping. -/
def Statement.dtorRun (handle : Option Nat) (finalizeCode : Int) : Except Error Bool :=
  match handle with
  | none => .ok true
  | some _ => Priv.CheckError1 finalizeCode

/-- src/sqlite.hpp lines 456-466: `Connection::~Connection()` wraps `Close()`
in `try .. catch(...)` with an empty handler, so whatever `Close()` does the
destructor returns normally. -/
def Connection.dtorRun (closeOutcome : Except Error Bool) : Except Error Unit :=
  match closeOutcome with
  | .ok _ => .ok ()
  | .error _ => .ok ()

/-! ## Variadic binding and the Connection convenience helpers
(src/sqlite.hpp lines 207-216, 274-278, 512-544) -/

/-- src/sqlite.hpp lines 233-271 funnel every typed overload into one engine
bind call; `BindAt` is that call wrapped in `CheckError`. -/
def Statement.BindAt (s : Stmt) (i : Nat) (v : SQLValue) : Except Error (Bool × Stmt) :=
  let p := sqlite3_bind s i v
  match Priv.CheckError1 p.1 with
  | .error e => .error e
  | .ok b => .ok (b, p.2)

/-- src/sqlite.hpp lines 233-271 under `CPP_SQLITE_NOTHROW`: the same bind
returning the success flag instead of throwing. -/
def Statement.BindAtNT (s : Stmt) (i : Nat) (v : SQLValue) : Bool × Stmt :=
  let p := sqlite3_bind s i v
  (Priv.CheckError1NT p.1, p.2)

/-- src/sqlite.hpp lines 274-278: the private variadic
`Bind(int index, const First&, const Args&...)` — bind at `index`, and on
success bind the rest at `index + 1, ...`. -/
def Statement.bindFrom (s : Stmt) (i : Nat) : List SQLValue → Except Error (Bool × Stmt)
  | [] => .ok (true, s)
  | v :: vs =>
    match Statement.BindAt s i v with
    | .error e => .error e
    | .ok (b, s') =>
      if b then Statement.bindFrom s' (i + 1) vs else .ok (false, s')

/-- src/sqlite.hpp lines 207-211: the public variadic `Bind(first, args...)`,
which is `Reset() && Bind(1, first, args...)`. -/
def Statement.BindAll (s : Stmt) (vs : List SQLValue) : Except Error (Bool × Stmt) :=
  match Statement.ResetE s with
  | .error e => .error e
  | .ok (b, s') =>
    if b then Statement.bindFrom s' 1 vs else .ok (false, s')

/-- The parameter-slot contents `bindFrom` is expected to produce: values
written into consecutive 0-based slots starting at `j`. -/
def bindInto (ps : List (Option SQLValue)) (j : Nat) : List SQLValue → List (Option SQLValue)
  | [] => ps
  | v :: vs => bindInto (ps.set j (some v)) (j + 1) vs

/-- src/sqlite.hpp lines 512-526: `Connection::Statement(command, args...)`.
The prepared statement (or the constructor's error) comes in as `prep`; with
arguments present the code calls `Bind` (discarding its Boolean, though in
the default configuration bind errors throw) and then returns a single
`Evaluate()`.  The zero-argument overload (lines 512-517) skips the bind. -/
def Connection.StatementRun (prep : Except Error Stmt) (vs : List SQLValue) :
    Except Error (Bool × Stmt) :=
  match prep with
  | .error e => .error e
  | .ok s =>
    match vs with
    | [] => Statement.Evaluate s
    | _ :: _ =>
      match Statement.BindAll s vs with
      | .error e => .error e
      | .ok (_, s') => Statement.Evaluate s'

/-- src/sqlite.hpp lines 528-544: `Connection::Query(command, args...)`.
Prepare, bind when arguments are present, and hand the statement to an owning
`Result` — no evaluation step is taken. -/
def Connection.QueryRun (prep : Except Error Stmt) (vs : List SQLValue) :
    Except Error Stmt :=
  match prep with
  | .error e => .error e
  | .ok s =>
    match vs with
    | [] => .ok s
    | _ :: _ =>
      match Statement.BindAll s vs with
      | .error e => .error e
      | .ok (_, s') => .ok s'

/-- Drive `Statement.Evaluate` until it reports false (fuel-bounded; the fuel
used below always suffices on fault-free statements). -/
def runToDone (s : Stmt) : Nat → Except Error Stmt
  | 0 => .ok s
  | n + 1 =>
    match Statement.Evaluate s with
    | .error e => .error e
    | .ok (true, s') => runToDone s' n
    | .ok (false, s') => .ok s'

/-- Modelled from the spec: "execute ... to completion (Statement, discarding
any result rows)" — the one-shot helper as the spec describes it, stepping
the prepared and bound statement until evaluation reports completion. -/
def specStatementToCompletion (prep : Except Error Stmt) (vs : List SQLValue) :
    Except Error Stmt :=
  match prep with
  | .error e => .error e
  | .ok s =>
    match vs with
    | [] => runToDone s (s.rows.length + 1)
    | _ :: _ =>
      match Statement.BindAll s vs with
      | .error e => .error e
      | .ok (_, s') => runToDone s' (s'.rows.length + 1)

/-! ## Handle ownership and finalization
(src/sqlite.hpp lines 186-205, 286-322, 432-435, 528-544)

A small heap model: wrapper objects (`Statement`/`Query`, which share one
layout, and `Result`) hold an optional native statement handle, identified by
an id that is never reused; `events` records every `sqlite3_finalize` call on
a non-null handle.  Each constructor, move operation and destructor of the
wrapper is one world operation translated from its C++ body. -/

/-- A live wrapper object: a `Statement`/`Query` (one nullable handle,
lines 169-282), a `Result` (nullable handle plus the `m_owning` flag set at
construction, lines 284-377), or a destroyed slot. -/
inductive Obj where
  | stmtO (h : Option Nat) : Obj
  | resO (h : Option Nat) (own : Bool) : Obj
  | tomb : Obj
deriving DecidableEq, Repr

/-- Does this object own handle `x`?  A `Statement` owns its non-null handle
(its destructor finalizes it, lines 191-197); a `Result` owns its non-null
handle only when `m_owning` is set (lines 309-315). -/
def Obj.ownsH (x : Nat) : Obj → Bool
  | .stmtO (some h) => decide (h = x)
  | .resO (some h) own => own && decide (h = x)
  | _ => false

/-- The world: live objects, the log of finalize calls on non-null handles,
and the next fresh handle id. -/
structure WorldO where
  objs : List Obj
  events : List Nat
  nextId : Nat
deriving DecidableEq, Repr

/-- The wrapper-lifecycle operations, each translated from one C++ member:
`newStmt` = a successful `Statement`/`Query` constructor (lines 172-182);
`stmtMoveCtor` = `Statement(Statement&&)` (lines 186-189, swap with the
null-initialized new object); `stmtMoveAssign` = `Statement::operator=`
(lines 199-205); `queryExecute` = `Query::Execute` returning
`Result(m_handle)` with the owning flag defaulted to false (lines 432-435,
286-297); `queryTake` = `Connection::Query`'s `Result(query.m_handle, true)`,
which swaps the handle out of the source (lines 528-544, 286-297);
`resMoveCtor` = `Result(Result&&)` (lines 303-307, swaps the handle, copies
`m_owning`); `resMoveAssign` = `Result::operator=` (lines 316-322, swaps the
handle, nulls the source, and does NOT touch `m_owning`); `destroy` = the
destructor of either object (lines 191-197 and 309-315; `sqlite3_finalize`
on a null handle is the engine's documented no-op). -/
inductive OpC where
  | newStmt : OpC
  | stmtMoveCtor (i : Nat) : OpC
  | stmtMoveAssign (i j : Nat) : OpC
  | queryExecute (i : Nat) : OpC
  | queryTake (i : Nat) : OpC
  | resMoveCtor (i : Nat) : OpC
  | resMoveAssign (i j : Nat) : OpC
  | destroy (i : Nat) : OpC
deriving DecidableEq, Repr

/-- The operations that preserve single-ownership; only `Result`
move-assignment is excluded (it moves the handle without moving the
`m_owning` flag). -/
def OpC.safe : OpC → Bool
  | .resMoveAssign _ _ => false
  | _ => true

/-- One lifecycle operation, `none` when the operation does not apply (bad
index or wrong object kind). -/
def stepOp (w : WorldO) (op : OpC) : Option WorldO :=
  match op with
  | .newStmt =>
    some ⟨w.objs ++ [.stmtO (some w.nextId)], w.events, w.nextId + 1⟩
  | .stmtMoveCtor i =>
    match w.objs[i]? with
    | some (.stmtO h) => some ⟨(w.objs.set i (.stmtO none)) ++ [.stmtO h], w.events, w.nextId⟩
    | _ => none
  | .stmtMoveAssign i j =>
    match w.objs[i]?, w.objs[j]? with
    | some (.stmtO _), some (.stmtO hj) =>
      some ⟨(w.objs.set i (.stmtO hj)).set j (.stmtO none), w.events, w.nextId⟩
    | _, _ => none
  | .queryExecute i =>
    match w.objs[i]? with
    | some (.stmtO h) => some ⟨w.objs ++ [.resO h false], w.events, w.nextId⟩
    | _ => none
  | .queryTake i =>
    match w.objs[i]? with
    | some (.stmtO h) => some ⟨(w.objs.set i (.stmtO none)) ++ [.resO h true], w.events, w.nextId⟩
    | _ => none
  | .resMoveCtor i =>
    match w.objs[i]? with
    | some (.resO h own) => some ⟨(w.objs.set i (.resO none own)) ++ [.resO h own], w.events, w.nextId⟩
    | _ => none
  | .resMoveAssign i j =>
    match w.objs[i]?, w.objs[j]? with
    | some (.resO _ owni), some (.resO hj ownj) =>
      some ⟨(w.objs.set i (.resO hj owni)).set j (.resO none ownj), w.events, w.nextId⟩
    | _, _ => none
  | .destroy i =>
    match w.objs[i]? with
    | some (.stmtO (some h)) => some ⟨w.objs.set i .tomb, w.events ++ [h], w.nextId⟩
    | some (.stmtO none) => some ⟨w.objs.set i .tomb, w.events, w.nextId⟩
    | some (.resO (some h) true) => some ⟨w.objs.set i .tomb, w.events ++ [h], w.nextId⟩
    | some (.resO _ _) => some ⟨w.objs.set i .tomb, w.events, w.nextId⟩
    | _ => none

/-- Run a list of lifecycle operations from a world. -/
def runOps (w : WorldO) : List OpC → Option WorldO
  | [] => some w
  | op :: ops =>
    match stepOp w op with
    | some w' => runOps w' ops
    | none => none

/-- Number of live owners of handle `x`. -/
def ownerCount (x : Nat) (l : List Obj) : Nat :=
  l.countP (Obj.ownsH x)

/-- Owners of `x` plus recorded finalizations of `x`: the quantity that the
single-finalization discipline keeps at 1 for an allocated handle. -/
def score (x : Nat) (w : WorldO) : Nat :=
  ownerCount x w.objs + w.events.count x

/-- The ownership invariant: every handle has at most one owner-or-finalize
in total, and unallocated ids have none. -/
def InvW (w : WorldO) : Prop :=
  (∀ x, score x w ≤ 1) ∧ (∀ x, w.nextId ≤ x → score x w = 0)

/-! ### Cursor lemmas -/

theorem next_of_row (s : Stmt) (hf : s.faults = []) (h : s.pos < s.rows.length) :
    Result.Next s = .ok (true, { s with pos := s.pos + 1, steps := s.steps + 1 }) := by
  simp [Result.Next, sqlite3_step, hf, h, SQLITE_ROW]

theorem next_of_done (s : Stmt) (hf : s.faults = []) (h : ¬ s.pos < s.rows.length) :
    Result.Next s = .ok (false, { s with pos := 0, steps := s.steps + 1 }) := by
  simp [Result.Next, sqlite3_step, hf, h, SQLITE_ROW, SQLITE_DONE, SQLITE_OK,
    Priv.CheckError1, sqlite3_reset]

theorem runNext_exhaust : ∀ (d : Nat) (s : Stmt), s.faults = [] →
    s.rows.length = s.pos + d →
    runNext s (d + 1) = List.replicate d true ++ [false] := by
  intro d
  induction d with
  | zero =>
    intro s hf hl
    have h : ¬ s.pos < s.rows.length := by omega
    simp [runNext, next_of_done s hf h]
  | succ d ih =>
    intro s hf hl
    have h : s.pos < s.rows.length := by omega
    have hstep := next_of_row s hf h
    have hrec := ih { s with pos := s.pos + 1, steps := s.steps + 1 } hf (by simp; omega)
    simp only [runNext, hstep, List.replicate_succ, List.cons_append]
    exact congrArg (true :: ·) hrec

theorem countP_set_add (p : Obj → Bool) :
    ∀ (l : List Obj) (i : Nat) (a b : Obj), l[i]? = some b →
      (l.set i a).countP p + (if p b then 1 else 0) =
        l.countP p + (if p a then 1 else 0) := by
  intro l
  induction l with
  | nil => intro i a b h; simp at h
  | cons y l ih =>
    intro i a b h
    cases i with
    | zero =>
      simp only [List.getElem?_cons_zero, Option.some.injEq] at h
      subst h
      simp [List.countP_cons]
      omega
    | succ i =>
      simp only [List.getElem?_cons_succ] at h
      have e := ih i a b h
      show ((y :: l.set i a).countP p) + _ = _
      simp only [List.countP_cons]
      omega

theorem ownerCount_append (x : Nat) (l : List Obj) (a : Obj) :
    ownerCount x (l ++ [a]) = ownerCount x l + (if Obj.ownsH x a then 1 else 0) := by
  simp [ownerCount, List.countP_append, List.countP_cons]

theorem count_append_single (x h : Nat) (l : List Nat) :
    (l ++ [h]).count x = l.count x + (if h = x then 1 else 0) := by
  simp [List.count_append, List.count_singleton']

theorem ownsH_res_eq_stmt (x : Nat) (h : Option Nat) (own : Bool) :
    Obj.ownsH x (.resO h own) = (own && Obj.ownsH x (.stmtO h)) := by
  cases h <;> simp [Obj.ownsH]

theorem ownsH_stmt_none (x : Nat) : Obj.ownsH x (.stmtO none) = false := rfl

theorem ownsH_stmt_some (x h : Nat) : Obj.ownsH x (.stmtO (some h)) = decide (h = x) := rfl

theorem ownsH_res_none (x : Nat) (own : Bool) : Obj.ownsH x (.resO none own) = false := rfl

theorem ownsH_res_some (x h : Nat) (own : Bool) :
    Obj.ownsH x (.resO (some h) own) = (own && decide (h = x)) := rfl

theorem ownsH_tomb (x : Nat) : Obj.ownsH x Obj.tomb = false := rfl

theorem InvW_of_le (w w' : WorldO) (hsc : ∀ x, score x w' ≤ score x w)
    (hide : w'.nextId = w.nextId) (hw : InvW w) : InvW w' := by
  refine ⟨fun x => le_trans (hsc x) (hw.1 x), fun x hx => ?_⟩
  have h0 := hw.2 x (by omega)
  have := hsc x
  omega

theorem stepOp_safe_inv (w w' : WorldO) (op : OpC) (hs : op.safe = true)
    (hw : InvW w) (h : stepOp w op = some w') : InvW w' := by
  cases op with
  | newStmt =>
    simp only [stepOp, Option.some.injEq] at h
    subst h
    constructor
    · intro x
      have e := ownerCount_append x w.objs (.stmtO (some w.nextId))
      have h1 := hw.1 x
      simp only [score] at *
      rw [e]
      by_cases hx : w.nextId = x
      · have h0 := hw.2 x (le_of_eq hx)
        simp only [score] at h0
        simp [ownsH_stmt_some, hx]
        omega
      · simp [ownsH_stmt_some, hx]
        omega
    · intro x hx
      have hx' : w.nextId + 1 ≤ x := hx
      have e := ownerCount_append x w.objs (.stmtO (some w.nextId))
      have h0 := hw.2 x (by omega)
      have hne : w.nextId ≠ x := by omega
      simp only [score] at *
      rw [e]
      simp [ownsH_stmt_some, hne]
      omega
  | stmtMoveCtor i =>
    simp only [stepOp] at h
    rcases hobj : w.objs[i]? with _ | obj <;> rw [hobj] at h
    · simp at h
    · cases obj with
      | stmtO hh =>
        simp only [Option.some.injEq] at h
        subst h
        refine InvW_of_le w _ ?_ rfl hw
        intro x
        have e1 := countP_set_add (Obj.ownsH x) w.objs i (.stmtO none) (.stmtO hh) hobj
        have e2 := ownerCount_append x (w.objs.set i (.stmtO none)) (.stmtO hh)
        simp only [score, ownerCount, ownsH_stmt_none, Bool.false_eq_true, if_false] at *
        omega
      | resO hh own => simp at h
      | tomb => simp at h
  | stmtMoveAssign i j =>
    simp only [stepOp] at h
    rcases hi : w.objs[i]? with _ | oi <;> rw [hi] at h
    · simp at h
    · cases oi with
      | stmtO hhi =>
        rcases hj : w.objs[j]? with _ | oj <;> rw [hj] at h
        · simp at h
        · cases oj with
          | stmtO hhj =>
            simp only [Option.some.injEq] at h
            subst h
            refine InvW_of_le w _ ?_ rfl hw
            intro x
            have hlen : j < w.objs.length := (List.getElem?_eq_some.mp hj).1
            have e1 := countP_set_add (Obj.ownsH x) w.objs i (.stmtO hhj) (.stmtO hhi) hi
            have e2 : ((w.objs.set i (.stmtO hhj)).set j (.stmtO none)).countP (Obj.ownsH x)
                + (if Obj.ownsH x (.stmtO hhj) then 1 else 0)
                = (w.objs.set i (.stmtO hhj)).countP (Obj.ownsH x)
                  + (if Obj.ownsH x (.stmtO none) then 1 else 0) := by
              rcases eq_or_ne i j with rfl | hij
              · exact countP_set_add (Obj.ownsH x) _ i (.stmtO none) (.stmtO hhj)
                  (by rw [List.getElem?_set]; simp [hlen])
              · have hkeep : (w.objs.set i (.stmtO hhj))[j]? = some (.stmtO hhj) := by
                  rw [List.getElem?_set, if_neg hij, hj]
                exact countP_set_add (Obj.ownsH x) _ j (.stmtO none) (.stmtO hhj) hkeep
            simp only [score, ownerCount, ownsH_stmt_none, Bool.false_eq_true, if_false] at *
            omega
          | resO hh own => simp at h
          | tomb => simp at h
      | resO hh own => simp at h
      | tomb => simp at h
  | queryExecute i =>
    simp only [stepOp] at h
    rcases hobj : w.objs[i]? with _ | obj <;> rw [hobj] at h
    · simp at h
    · cases obj with
      | stmtO hh =>
        simp only [Option.some.injEq] at h
        subst h
        refine InvW_of_le w _ ?_ rfl hw
        intro x
        have e2 := ownerCount_append x w.objs (.resO hh false)
        simp only [score, ownsH_res_eq_stmt, Bool.false_and, Bool.false_eq_true, if_false] at *
        omega
      | resO hh own => simp at h
      | tomb => simp at h
  | queryTake i =>
    simp only [stepOp] at h
    rcases hobj : w.objs[i]? with _ | obj <;> rw [hobj] at h
    · simp at h
    · cases obj with
      | stmtO hh =>
        simp only [Option.some.injEq] at h
        subst h
        refine InvW_of_le w _ ?_ rfl hw
        intro x
        have e1 := countP_set_add (Obj.ownsH x) w.objs i (.stmtO none) (.stmtO hh) hobj
        have e2 := ownerCount_append x (w.objs.set i (.stmtO none)) (.resO hh true)
        simp only [score, ownerCount, ownsH_res_eq_stmt, Bool.true_and,
          ownsH_stmt_none, Bool.false_eq_true, if_false] at *
        omega
      | resO hh own => simp at h
      | tomb => simp at h
  | resMoveCtor i =>
    simp only [stepOp] at h
    rcases hobj : w.objs[i]? with _ | obj <;> rw [hobj] at h
    · simp at h
    · cases obj with
      | stmtO hh => simp at h
      | resO hh own =>
        simp only [Option.some.injEq] at h
        subst h
        refine InvW_of_le w _ ?_ rfl hw
        intro x
        have e1 := countP_set_add (Obj.ownsH x) w.objs i (.resO none own) (.resO hh own) hobj
        have e2 := ownerCount_append x (w.objs.set i (.resO none own)) (.resO hh own)
        simp only [score, ownerCount, ownsH_res_none, Bool.false_eq_true, if_false] at *
        omega
      | tomb => simp at h
  | resMoveAssign i j => simp [OpC.safe] at hs
  | destroy i =>
    simp only [stepOp] at h
    rcases hobj : w.objs[i]? with _ | obj <;> rw [hobj] at h
    · simp at h
    · cases obj with
      | stmtO hh =>
        cases hh with
        | none =>
          simp only [Option.some.injEq] at h
          subst h
          refine InvW_of_le w _ ?_ rfl hw
          intro x
          have e1 := countP_set_add (Obj.ownsH x) w.objs i .tomb (.stmtO none) hobj
          simp only [score, ownerCount, ownsH_stmt_none, ownsH_tomb,
            Bool.false_eq_true, if_false] at *
          omega
        | some hh =>
          simp only [Option.some.injEq] at h
          subst h
          refine InvW_of_le w _ ?_ rfl hw
          intro x
          have e1 := countP_set_add (Obj.ownsH x) w.objs i .tomb (.stmtO (some hh)) hobj
          have e2 := count_append_single x hh w.events
          simp only [score, ownerCount, ownsH_stmt_some, ownsH_tomb,
            Bool.false_eq_true, if_false, decide_eq_true_eq] at *
          omega
      | resO hh own =>
        cases hh with
        | none =>
          cases own <;>
          · simp only [Option.some.injEq] at h
            subst h
            refine InvW_of_le w _ ?_ rfl hw
            intro x
            have e1 := countP_set_add (Obj.ownsH x) w.objs i .tomb (.resO none _) hobj
            simp only [score, ownerCount, ownsH_res_none, ownsH_tomb,
              Bool.false_eq_true, if_false] at *
            omega
        | some hh =>
          cases own with
          | false =>
            simp only [Option.some.injEq] at h
            subst h
            refine InvW_of_le w _ ?_ rfl hw
            intro x
            have e1 := countP_set_add (Obj.ownsH x) w.objs i .tomb (.resO (some hh) false) hobj
            simp only [score, ownerCount, ownsH_res_some, ownsH_tomb,
              Bool.false_and, Bool.false_eq_true, if_false] at *
            omega
          | true =>
            simp only [Option.some.injEq] at h
            subst h
            refine InvW_of_le w _ ?_ rfl hw
            intro x
            have e1 := countP_set_add (Obj.ownsH x) w.objs i .tomb (.resO (some hh) true) hobj
            have e2 := count_append_single x hh w.events
            simp only [score, ownerCount, ownsH_res_some, ownsH_tomb, Bool.true_and,
              Bool.false_eq_true, if_false, decide_eq_true_eq] at *
            omega
      | tomb => simp at h

theorem InvW_empty : InvW ⟨[], [], 0⟩ := by
  constructor <;> intro x <;> simp [score, ownerCount]

theorem runOps_safe_inv : ∀ (ops : List OpC) (w : WorldO),
    (∀ op ∈ ops, op.safe = true) → InvW w →
    ∀ w', runOps w ops = some w' → InvW w' := by
  intro ops
  induction ops with
  | nil =>
    intro w _ hw w' h
    simp only [runOps, Option.some.injEq] at h
    subst h
    exact hw
  | cons op ops ih =>
    intro w hsafe hw w' h
    simp only [runOps] at h
    rcases hst : stepOp w op with _ | w1 <;> rw [hst] at h
    · simp at h
    · exact ih w1 (fun o ho => hsafe o (List.mem_cons_of_mem _ ho))
        (stepOp_safe_inv w w1 op (hsafe op (List.mem_cons_self _ _)) hw hst) w' h

/-! ## Claims -/

/-- C1: the claim states that `Result::Get<std::string>` and
`Result::Get<sqlite::Blob>` both return an empty value on a zero-length
column without dereferencing the engine's null pointer.  Evaluating the code
at the failing input: the string specialization is guarded and returns the
empty string, but the blob specialization hands (null, 0) to
`Blob(const void*, int32_t)`, whose `m_data.at(0)` on the empty resized
vector raises `std::out_of_range` — no empty blob is ever produced. -/
theorem C1_zero_length_text_and_blob :
    Result.GetString none 0 = .ok []
    ∧ (∀ ptr, Result.GetString ptr 0 = .ok [])
    ∧ Result.GetBlob none 0 = .error CppError.outOfRange :=
  ⟨rfl, fun _ => rfl, rfl⟩

/-- C2: the claim states that destruction of a Statement or Connection never
propagates an engine error.  Evaluating the code at the failing input:
`Statement::~Statement` runs `Priv::CheckError(sqlite3_finalize(m_handle))`
with no handler, so a SQLITE_BUSY finalize code escapes the destructor (in
C++ the noexcept destructor then terminates the program), while
`Connection::~Connection`'s `try/catch(...)` does suppress every close
error. -/
theorem C2_destructor_error_propagation :
    Statement.dtorRun (some 1) SQLITE_BUSY =
      .error ⟨"SQL error: " ++ sqlite3_errstr SQLITE_BUSY, SQLITE_BUSY⟩
    ∧ (∀ c : Except Error Bool, Connection.dtorRun c = .ok ()) := by
  refine ⟨rfl, fun c => ?_⟩
  cases c <;> rfl

/-- C4: `Statement::Evaluate` / `Result::Next` report true exactly once per
available row — true `rows.length` times from a fresh cursor, then false with
the cursor automatically reset; on a fault-free statement `Next` never fails
(calling it after exhaustion is safe and deterministically restarts from the
reset state); any injected engine status other than OK/ROW/DONE makes it fail
with `Error`; and `Evaluate` is the same function as `Next`. -/
theorem C4_next_row_protocol (s : Stmt) (hf : s.faults = []) (hp : s.pos = 0) :
    runNext s (s.rows.length + 1) = List.replicate s.rows.length true ++ [false]
    ∧ (∀ t : Stmt, t.faults = [] → ¬ t.pos < t.rows.length →
        Result.Next t = .ok (false, { t with pos := 0, steps := t.steps + 1 }))
    ∧ (∀ t : Stmt, t.faults = [] → ∃ r, Result.Next t = .ok r)
    ∧ (∀ c : Int, c ≠ 0 → c ≠ 100 → c ≠ 101 → ∀ t : Stmt, t.faults = [c] →
        ∃ e, Result.Next t = .error e)
    ∧ (∀ t : Stmt, Statement.Evaluate t = Result.Next t) := by
  refine ⟨runNext_exhaust s.rows.length s hf (by omega), next_of_done, ?_, ?_, fun t => rfl⟩
  · intro t ht
    by_cases hlt : t.pos < t.rows.length
    · exact ⟨_, next_of_row t ht hlt⟩
    · exact ⟨_, next_of_done t ht hlt⟩
  · intro c h0 h100 h101 t ht
    refine ⟨⟨"SQL error: " ++ sqlite3_errstr c, c⟩, ?_⟩
    simp [Result.Next, sqlite3_step, ht, Priv.CheckError1,
      SQLITE_ROW, SQLITE_OK, SQLITE_DONE, h0, h100, h101]

/-- Witness for C4 at a concrete two-row statement. -/
theorem C4_next_row_protocol_witness :
    runNext (mkStmt 1 [[SQLValue.intv 1], [SQLValue.intv 2]]) 3 =
      List.replicate 2 true ++ [false] :=
  (C4_next_row_protocol (mkStmt 1 [[SQLValue.intv 1], [SQLValue.intv 2]]) rfl rfl).1

/-- C6: a command the engine cannot compile makes the `Statement` constructor
fail with `Error` before any statement (hence any row) exists, and the error
text is the engine's generic status string for the extended code joined to the
connection's detailed message as "status: detail". -/
theorem C6_prepare_failure (db : Db) (code : Int) (handle : Option Nat)
    (h0 : code ≠ 0) (h101 : code ≠ 101) :
    Statement.ctorRun db code handle =
      .error ⟨sqlite3_errstr db.extendedErrcode ++ ": " ++ db.errmsg, db.extendedErrcode⟩ := by
  simp [Statement.ctorRun, Priv.CheckError2, SQLITE_OK, SQLITE_DONE, h0, h101]

/-- Witness for C6 at a concrete failed prepare. -/
theorem C6_prepare_failure_witness :
    Statement.ctorRun ⟨1, "no such table: t"⟩ 1 none =
      .error ⟨sqlite3_errstr 1 ++ ": " ++ "no such table: t", 1⟩ :=
  C6_prepare_failure ⟨1, "no such table: t"⟩ 1 none (by decide) (by decide)

/-- C10: `Blob(const void*, int32_t)` with byte count 0 resizes the internal
vector to 0 and then performs the checked access `m_data.at(0)`, raising
`std::out_of_range`; no call of this constructor produces a zero-size blob
(only the vector constructor can); and `Result::Get<sqlite::Blob>` on a
zero-length column takes exactly this failing path. -/
theorem C10_blob_ctor_zero_bytes :
    (∀ data, Blob.ctorPtr data 0 = .error CppError.outOfRange)
    ∧ (∀ data n b, Blob.ctorPtr data n = .ok b → 0 < n)
    ∧ Blob.ctorVec [] = []
    ∧ Result.GetBlob (columnBlobPtr (SQLValue.blobv [])) (columnBytes (SQLValue.blobv [])) =
        .error CppError.outOfRange := by
  refine ⟨fun _ => rfl, ?_, rfl, rfl⟩
  intro data n b h
  cases n with
  | zero => simp [Blob.ctorPtr] at h
  | succ n => omega

/-- Witness for C10: the positive-size path does construct a blob. -/
theorem C10_blob_ctor_zero_bytes_witness :
    Blob.ctorPtr none 0 = .error CppError.outOfRange ∧ 0 < 1 :=
  ⟨C10_blob_ctor_zero_bytes.1 none, C10_blob_ctor_zero_bytes.2.1 (some [3]) 1 [3] rfl⟩

/-- C3 counterexample: the claim states that for EVERY cursor state,
`ColumnCount()` does not leave the row pointer shifted and a subsequent fresh
`Next()` behaves as it would have without the probe.  Take a one-row result
set and advance once (the mid-iteration state below is reached by the first
conjunct): without the probe the next `Next()` returns false, but after
`ColumnCount()` — which ends in `Reset()` — the next `Next()` returns true
again: the probe rewound a mid-iteration cursor. -/
theorem C3_columncount_shifts_cursor :
    Result.Next (mkStmt 1 [[SQLValue.intv 5]]) =
      .ok (true, { mkStmt 1 [[SQLValue.intv 5]] with pos := 1, steps := 1 })
    ∧ nextBool { mkStmt 1 [[SQLValue.intv 5]] with pos := 1, steps := 1 } = .ok false
    ∧ (Result.ColumnCount { mkStmt 1 [[SQLValue.intv 5]] with pos := 1, steps := 1 }).map
        (fun p => (p.1, p.2.pos)) = .ok (1, 0)
    ∧ (Result.ColumnCount { mkStmt 1 [[SQLValue.intv 5]] with pos := 1, steps := 1 }).bind
        (fun p => nextBool p.2) = .ok true :=
  ⟨rfl, rfl, rfl, rfl⟩

/-- C3 amended: on a fault-free statement, `ColumnCount()` returns the column
count a row would expose (0 on an empty result set) and always leaves the row
pointer at the initial position; hence it is observationally neutral exactly
when the cursor was already at the start (fresh cursor or empty result set) —
a subsequent fresh `Next()` then behaves as before the probe — while a
mid-iteration cursor is rewound to the start. -/
theorem C3_columncount_amended (s : Stmt) (hf : s.faults = []) :
    Result.ColumnCount s =
      .ok (if s.rows.length = 0 then 0 else s.ncols,
        { s with pos := 0, steps := s.steps + 1 })
    ∧ (s.pos = 0 →
        nextBool { s with pos := 0, steps := s.steps + 1 } = nextBool s) := by
  have hf1 : (sqlite3_reset s).faults = [] := hf
  constructor
  · by_cases hz : s.rows.length = 0
    · have hlt : ¬ (sqlite3_reset s).pos < (sqlite3_reset s).rows.length :=
        show ¬ 0 < s.rows.length by omega
      have hn := next_of_done (sqlite3_reset s) hf1 hlt
      simp only [Result.ColumnCount, hn, hz, if_pos]
      rfl
    · have hlt : (sqlite3_reset s).pos < (sqlite3_reset s).rows.length :=
        show 0 < s.rows.length by omega
      have hn := next_of_row (sqlite3_reset s) hf1 hlt
      simp only [Result.ColumnCount, hn, hz, if_neg]
      rfl
  · intro hp
    by_cases hlt : s.pos < s.rows.length
    · have h1 := next_of_row s hf hlt
      have h2 := next_of_row { s with pos := 0, steps := s.steps + 1 } hf
        (show 0 < s.rows.length by omega)
      simp [nextBool, h1, h2, Except.map]
    · have h1 := next_of_done s hf hlt
      have h2 := next_of_done { s with pos := 0, steps := s.steps + 1 } hf
        (show ¬ 0 < s.rows.length by omega)
      simp [nextBool, h1, h2, Except.map]

/-- Witness for the amended C3 on an empty result set: count 0, cursor left
at the start. -/
theorem C3_columncount_amended_witness :
    Result.ColumnCount (mkStmt 0 []) = .ok (0, { mkStmt 0 [] with pos := 0, steps := 1 }) := by
  have h := (C3_columncount_amended (mkStmt 0 []) rfl).1
  simpa using h

/-- C7: the claim states the bind/extract round trip through a single-row
table restores every value of every supported scalar type.  It holds for
int32 (within the C type's range, as `sqlite3_column_int` truncates to 32
bits), int64, float (modulo the documented widen/narrow), double, text
(including the empty string, thanks to the zero-length guard), and non-empty
blobs — but the zero-length blob is the failing input: extraction runs the
`Blob(ptr, 0)` constructor, which raises `std::out_of_range` instead of
returning the empty blob. -/
theorem C7_round_trip :
    (∀ v : Int, -(2 ^ 31) ≤ v → v < 2 ^ 31 → roundTripInt32 v = v)
    ∧ (∀ v : Int, roundTripInt64 v = v)
    ∧ (∀ v : Rat, roundTripFloat v = v)
    ∧ (∀ v : Rat, roundTripDouble v = v)
    ∧ (∀ s : List Nat, roundTripString s = .ok s)
    ∧ (∀ b : List Nat, b ≠ [] → roundTripBlob b = .ok b)
    ∧ roundTripBlob [] = .error CppError.outOfRange := by
  refine ⟨?_, fun v => rfl, fun v => rfl, fun v => rfl, ?_, ?_, rfl⟩
  · intro v hlo hhi
    have hmod : (v + 2 ^ 31) % 2 ^ 32 = v + 2 ^ 31 :=
      Int.emod_eq_of_lt (by omega) (by omega)
    simp only [roundTripInt32, Result.GetInt32, bindInt32, columnInt, int32OfInt64]
    omega
  · intro s
    by_cases hs : s = []
    · subst hs
      rfl
    · have hlen : s.length ≠ 0 := by
        simpa [List.length_eq_zero] using hs
      simp [roundTripString, Result.GetString, columnTextPtr, columnBytes, bindText,
        hs, hlen, List.take_length]
  · intro b hb
    have hlen : b.length ≠ 0 := by
      simpa [List.length_eq_zero] using hb
    simp [roundTripBlob, Result.GetBlob, Blob.ctorPtr, columnBlobPtr, columnBytes,
      bindBlob, hb, hlen, List.take_length]

/-- Witness for C7 at concrete values of each kind. -/
theorem C7_round_trip_witness :
    roundTripInt32 5 = 5 ∧ roundTripString [104, 105] = .ok [104, 105]
      ∧ roundTripBlob [7] = .ok [7] :=
  ⟨C7_round_trip.1 5 (by decide) (by decide),
    C7_round_trip.2.2.2.2.1 [104, 105],
    C7_round_trip.2.2.2.2.2.1 [7] (by decide)⟩

theorem bindFrom_ok : ∀ (vs : List SQLValue) (s : Stmt) (i : Nat), 1 ≤ i →
    i + vs.length ≤ s.nparams + 1 →
    Statement.bindFrom s i vs =
      .ok (true, { s with params := bindInto s.params (i - 1) vs }) := by
  intro vs
  induction vs with
  | nil =>
    intro s i h1 h2
    simp [Statement.bindFrom, bindInto]
  | cons v vs ih =>
    intro s i h1 h2
    have hcode : sqlite3_bind s i v =
        (SQLITE_OK, { s with params := s.params.set (i - 1) (some v) }) := by
      have hle : i ≤ s.nparams := by
        simp only [List.length_cons] at h2
        omega
      rw [sqlite3_bind, if_pos ⟨h1, hle⟩]
    rw [show Statement.bindFrom s i (v :: vs) =
        (match Statement.BindAt s i v with
          | .error e => .error e
          | .ok (b, s') =>
            if b then Statement.bindFrom s' (i + 1) vs else .ok (false, s')) from rfl]
    rw [Statement.BindAt, hcode]
    simp only [Priv.CheckError1, SQLITE_OK, SQLITE_DONE]
    norm_num
    have hrec := ih { s with params := s.params.set (i - 1) (some v) } (i + 1)
      (by omega)
      (show i + 1 + vs.length ≤ s.nparams + 1 by
        simp only [List.length_cons] at h2
        omega)
    rw [hrec]
    have hi : i - 1 + 1 = i := by omega
    rw [show bindInto s.params (i - 1) (v :: vs) =
        bindInto (s.params.set (i - 1) (some v)) (i - 1 + 1) vs from rfl, hi]
    simp

/-- `Statement::Bind(first, args...)` resets, then writes the arguments into
consecutive 1-based slots; with enough parameter slots it succeeds and leaves
exactly those slots updated. -/
theorem BindAll_ok (s : Stmt) (vs : List SQLValue) (h : vs.length ≤ s.nparams) :
    Statement.BindAll s vs =
      .ok (true, { s with pos := 0, params := bindInto s.params 0 vs }) := by
  rw [Statement.BindAll, Statement.ResetE]
  simp only [Priv.CheckError1, SQLITE_OK, SQLITE_DONE]
  norm_num
  have hrec := bindFrom_ok vs (sqlite3_reset s) 1 (by omega)
    (show 1 + vs.length ≤ s.nparams + 1 by omega)
  rw [hrec]
  rfl

/-- C8 counterexample: the claim states `Connection::Statement` executes the
command TO COMPLETION, discarding any result rows.  On a two-row result set
the code performs exactly one evaluation step (one engine step, cursor left
on the first row, return value true = "row available") and then finalizes,
whereas executing to completion takes three engine steps and ends with the
cursor reset after a false. -/
theorem C8_not_run_to_completion :
    (Connection.StatementRun (.ok (mkStmt 1 [[SQLValue.intv 1], [SQLValue.intv 2]])) []).map
        (fun p => (p.1, p.2.steps, p.2.pos)) = .ok (true, 1, 1)
    ∧ (specStatementToCompletion (.ok (mkStmt 1 [[SQLValue.intv 1], [SQLValue.intv 2]])) []).map
        (fun t => (t.steps, t.pos)) = .ok (3, 0) :=
  ⟨rfl, rfl⟩

/-- C8 amended: `Connection::Statement(command, args...)` prepares, binds the
arguments into positions 1..n in argument order, and performs a SINGLE
evaluation step (which runs a non-row-returning command to completion, but
computes only the first row of a row-returning one) before the statement is
finalized; `Connection::Query(command, args...)` prepares and binds
identically and returns the un-stepped cursor; both propagate `Error` from
preparation and from binding, and the Statement helper propagates the error
of its one evaluation step. -/
theorem C8_one_shot_helpers :
    (∀ e vs, Connection.StatementRun (.error e) vs = .error e)
    ∧ (∀ e vs, Connection.QueryRun (.error e) vs = .error e)
    ∧ (∀ s, Connection.StatementRun (.ok s) [] = Statement.Evaluate s)
    ∧ (∀ s v vs e, Statement.BindAll s (v :: vs) = .error e →
        Connection.StatementRun (.ok s) (v :: vs) = .error e
        ∧ Connection.QueryRun (.ok s) (v :: vs) = .error e)
    ∧ (∀ s v vs, (v :: vs).length ≤ s.nparams →
        Connection.StatementRun (.ok s) (v :: vs) =
          Statement.Evaluate { s with pos := 0, params := bindInto s.params 0 (v :: vs) }
        ∧ Connection.QueryRun (.ok s) (v :: vs) =
          .ok { s with pos := 0, params := bindInto s.params 0 (v :: vs) }) := by
  refine ⟨fun e vs => rfl, fun e vs => rfl, fun s => rfl, ?_, ?_⟩
  · intro s v vs e h
    constructor
    · rw [show Connection.StatementRun (.ok s) (v :: vs) =
          (match Statement.BindAll s (v :: vs) with
            | .error e => .error e
            | .ok (_, s') => Statement.Evaluate s') from rfl, h]
    · rw [show Connection.QueryRun (.ok s) (v :: vs) =
          (match Statement.BindAll s (v :: vs) with
            | .error e => .error e
            | .ok (_, s') => .ok s') from rfl, h]
  · intro s v vs h
    have hb := BindAll_ok s (v :: vs) h
    constructor
    · rw [show Connection.StatementRun (.ok s) (v :: vs) =
          (match Statement.BindAll s (v :: vs) with
            | .error e => .error e
            | .ok (_, s') => Statement.Evaluate s') from rfl, hb]
    · rw [show Connection.QueryRun (.ok s) (v :: vs) =
          (match Statement.BindAll s (v :: vs) with
            | .error e => .error e
            | .ok (_, s') => .ok s') from rfl, hb]

/-- Witness for the amended C8: binding one argument on a one-parameter query
writes slot 1 and returns the un-stepped cursor. -/
theorem C8_one_shot_helpers_witness :
    Connection.QueryRun (.ok ⟨1, [none], 0, [], 0, 0, []⟩) [SQLValue.intv 9] =
      .ok ⟨1, [some (SQLValue.intv 9)], 0, [], 0, 0, []⟩ :=
  (C8_one_shot_helpers.2.2.2.2 ⟨1, [none], 0, [], 0, 0, []⟩ (SQLValue.intv 9) []
    (by decide)).2

/-- C9 counterexample: the claim states that under `CPP_SQLITE_NOTHROW`
every fallible operation returns false EXACTLY where the default
configuration raises `Error`.  For `Statement::Evaluate` this fails: on
normal completion (an empty result set) the no-throw build returns false
while the default build returns false WITHOUT raising — false does not mean
"would have raised". -/
theorem C9_nothrow_not_exact :
    ¬ (∀ s : Stmt, (Statement.EvaluateNT s).1 = false ↔
        ∃ e, Statement.Evaluate s = .error e) := by
  intro hcl
  have h1 : (Statement.EvaluateNT (mkStmt 0 [])).1 = false := rfl
  obtain ⟨e, he⟩ := (hcl (mkStmt 0 [])).mp h1
  have h2 : Statement.Evaluate (mkStmt 0 []) =
      .ok (false, { mkStmt 0 [] with steps := 1 }) := rfl
  rw [h2] at he
  exact Except.noConfusion he

/-- C9 amended: the compile-time `CPP_SQLITE_NOTHROW` switch makes
`CheckError` — and therefore every operation that returns its result
directly, such as `Bind` and `Reset` — return false exactly where the
default configuration raises, with identical state effects on success; but
`Evaluate`/`Next` also return false on normal completion, so for them false
does not coincide with "the default build raises". -/
theorem C9_nothrow_flag (code : Int) (db : Db) (s : Stmt) (i : Nat) (v : SQLValue) :
    (Priv.CheckError1NT code = false ↔ ∃ e, Priv.CheckError1 code = .error e)
    ∧ (Priv.CheckError1NT code = true ↔ Priv.CheckError1 code = .ok true)
    ∧ (Priv.CheckError2NT db code = false ↔ ∃ e, Priv.CheckError2 db code = .error e)
    ∧ ((Statement.BindAtNT s i v).1 = false ↔ ∃ e, Statement.BindAt s i v = .error e)
    ∧ (∀ b t, Statement.BindAt s i v = .ok (b, t) → Statement.BindAtNT s i v = (b, t)) := by
  refine ⟨?_, ?_, ?_, ?_, ?_⟩
  · unfold Priv.CheckError1NT Priv.CheckError1
    by_cases h : code ≠ SQLITE_OK ∧ code ≠ SQLITE_DONE <;> simp [h]
  · unfold Priv.CheckError1NT Priv.CheckError1
    by_cases h : code ≠ SQLITE_OK ∧ code ≠ SQLITE_DONE <;> simp [h]
  · unfold Priv.CheckError2NT Priv.CheckError2
    by_cases h : code ≠ SQLITE_OK ∧ code ≠ SQLITE_DONE <;> simp [h]
  · unfold Statement.BindAtNT Statement.BindAt Priv.CheckError1NT Priv.CheckError1
    by_cases h : (sqlite3_bind s i v).1 ≠ SQLITE_OK ∧ (sqlite3_bind s i v).1 ≠ SQLITE_DONE <;>
      simp [h]
  · intro b t h
    simp only [Statement.BindAt, Priv.CheckError1] at h
    simp only [Statement.BindAtNT, Priv.CheckError1NT]
    by_cases hc : (sqlite3_bind s i v).1 ≠ SQLITE_OK ∧ (sqlite3_bind s i v).1 ≠ SQLITE_DONE
    · simp [hc] at h
    · simp only [hc, if_false, if_neg hc, Except.ok.injEq, Prod.mk.injEq] at h ⊢
      exact h

/-- Witness for the amended C9: a successful bind behaves identically in the
no-throw build. -/
theorem C9_nothrow_flag_witness :
    Statement.BindAtNT ⟨1, [none], 0, [], 0, 0, []⟩ 1 SQLValue.nullv =
      (true, ⟨1, [some SQLValue.nullv], 0, [], 0, 0, []⟩) :=
  (C9_nothrow_flag 0 ⟨0, ""⟩ ⟨1, [none], 0, [], 0, 0, []⟩ 1 SQLValue.nullv).2.2.2.2 true
    ⟨1, [some SQLValue.nullv], 0, [], 0, 0, []⟩ rfl

/-- C5 counterexample: the claim states that at most one finalization ever
occurs per prepared-statement handle across Results, their source
Statement/Query, and MOVES OF EITHER.  `Result::operator=` (move assignment)
swaps the handle but does not transfer `m_owning`, so move-assigning a
borrowing Result (obtained from `Query::Execute`) into an owning Result
(obtained from `Connection::Query`) produces an owning Result over a handle
the Query still owns: handle 0 below is finalized twice. -/
theorem C5_double_finalize :
    (runOps ⟨[], [], 0⟩
        ([.newStmt, .queryExecute 0, .newStmt, .queryTake 2, .resMoveAssign 3 1,
          .destroy 3, .destroy 0] : List OpC)).map (fun w => w.events) = some [0, 0] := by
  rfl

/-- C5 amended: the ownership mode is an explicit construction-time flag —
the owning constructor (used by `Connection::Query`) takes the handle out of
the source, leaving it null, and its destructor finalizes the handle exactly
once, while a borrowing Result never finalizes — and every lifecycle trace
that avoids `Result` move-assignment (which does not transfer `m_owning`)
finalizes each handle at most once.  Move construction is safe. -/
theorem C5_ownership_amended :
    (∀ ops : List OpC, (∀ op ∈ ops, op.safe = true) →
      ∀ w, runOps ⟨[], [], 0⟩ ops = some w → ∀ x, w.events.count x ≤ 1)
    ∧ (∀ (w : WorldO) (i h : Nat) (w' : WorldO), w.objs[i]? = some (.stmtO (some h)) →
        stepOp w (.queryTake i) = some w' →
          w'.objs[i]? = some (.stmtO none)
          ∧ w'.objs.getLast? = some (.resO (some h) true))
    ∧ (∀ (w : WorldO) (i : Nat) (h : Option Nat) (w' : WorldO),
        w.objs[i]? = some (.resO h false) →
        stepOp w (.destroy i) = some w' → w'.events = w.events)
    ∧ (∀ (w : WorldO) (i h : Nat) (w' : WorldO), w.objs[i]? = some (.resO (some h) true) →
        stepOp w (.destroy i) = some w' → w'.events = w.events ++ [h]) := by
  refine ⟨?_, ?_, ?_, ?_⟩
  · intro ops hsafe w hrun x
    have hinv := runOps_safe_inv ops ⟨[], [], 0⟩ hsafe InvW_empty w hrun
    have h1 := hinv.1 x
    simp only [score] at h1
    omega
  · intro w i h w' hobj hstep
    have hlen : i < w.objs.length := (List.getElem?_eq_some.mp hobj).1
    simp only [stepOp, hobj] at hstep
    injection hstep with hstep
    subst hstep
    constructor
    · show ((w.objs.set i (Obj.stmtO none)) ++ [Obj.resO (some h) true])[i]? =
        some (Obj.stmtO none)
      rw [List.getElem?_append]
      simp only [List.length_set, hlen, if_pos]
      rw [List.getElem?_set]
      simp [hlen]
    · show ((w.objs.set i (Obj.stmtO none)) ++ [Obj.resO (some h) true]).getLast? =
        some (Obj.resO (some h) true)
      simp [List.getLast?_concat]
  · intro w i h w' hobj hstep
    cases h with
    | none =>
      simp only [stepOp, hobj] at hstep
      injection hstep with hstep
      subst hstep
      rfl
    | some hh =>
      simp only [stepOp, hobj] at hstep
      injection hstep with hstep
      subst hstep
      rfl
  · intro w i h w' hobj hstep
    simp only [stepOp, hobj] at hstep
    injection hstep with hstep
    subst hstep
    rfl

/-- Witness for the amended C5: a safe trace — prepare, hand the handle to an
owning Result, destroy both — finalizes the handle exactly once. -/
theorem C5_ownership_amended_witness :
    (WorldO.mk [Obj.tomb, Obj.tomb] [0] 1).events.count 0 ≤ 1 :=
  C5_ownership_amended.1
    ([.newStmt, .queryTake 0, .destroy 1, .destroy 0] : List OpC)
    (by decide) ⟨[Obj.tomb, Obj.tomb], [0], 1⟩ rfl 0

end SQLite
